import Mathlib

/-!
# Verification of the Optionator configuration engine

Shallow embedding of `pkg/optionator` (files `optionator.go`, `nested.go`,
`config.go` and the package iterations shipped alongside them).  Go
reflection values are embedded as a tree type `Value`; a struct value
carries, per field, the metadata that `reflect.StructField` exposes
(name, exportedness, the raw tag key/value pairs).  A typed nil pointer
is `Value.ptrNil z` where `z` is the zero value of the pointee type
(this mirrors `reflect.New(t.Elem())`, which produces exactly that zero
value on allocation).  Machine integers are `Int`/`Nat` with explicit
two's-complement truncation at the field's width, matching
`reflect.Value.SetInt`/`SetUint`/type conversion semantics.
`float64` parsing is modelled over `Rat` restricted to plain decimal
literals (no claim depends on binary rounding).

The effective call chain of the package is
`New -> NewWithConfig -> setDefaultRecursively` (which calls the
three-argument `parseAndSetDefault`, the revision that rejects
unsupported field kinds) followed by the option steps and
`validateRequiredFields`; that chain is what is embedded here.
-/

namespace Optionator

/-- `Config` from `config.go`: customizable tag names. -/
structure Config where
  DefaultTag : String
  RequiredTag : String
deriving DecidableEq

/-- `defaultConfig` from `config.go`. -/
def defaultConfig : Config := ⟨"default", "required"⟩

mutual

/-- Embedded Go value, as seen through `reflect`.  Integer widths are
8/16/32/64 (Go `int` is 64-bit on the targets at hand).  `durationV`
is a value whose static type is exactly `time.Duration` (detected by
type identity in the source, not by kind).  `opaqueV` stands for a
value of a kind the engine has no handler for (func, chan, map, ...),
carrying its printed type name and whether it is non-zero. -/
inductive Value where
  | str (s : String)
  | intV (w : Nat) (n : Int)
  | uintV (w : Nat) (n : Nat)
  | floatV (q : Rat)
  | boolV (b : Bool)
  | durationV (n : Int)
  | structV (fs : Fields)
  | ptrNil (zelem : Value)
  | ptr (v : Value)
  | opaqueV (tyName : String) (nonzero : Bool)

/-- The fields of a struct value, each with the `reflect.StructField`
data the engine reads: name, exportedness (`PkgPath == ""`), and the
struct-tag key/value pairs. -/
inductive Fields where
  | nil
  | cons (name : String) (exported : Bool) (tags : List (String × String)) (v : Value) (fs : Fields)

end

/-- `reflect.StructTag.Get`: value of the first matching key, `""` if absent. -/
def tagGet (tags : List (String × String)) (key : String) : String :=
  match tags with
  | [] => ""
  | (k, v) :: rest => if k = key then v else tagGet rest key

mutual

/-- `isZeroValue` from the source: `reflect.DeepEqual` of the value with
the zero value of its type. -/
def isZeroValue : Value → Bool
  | .str s => s = ""
  | .intV _ n => n = 0
  | .uintV _ n => n = 0
  | .floatV q => q = 0
  | .boolV b => b = false
  | .durationV n => n = 0
  | .structV fs => fieldsAllZero fs
  | .ptrNil _ => true
  | .ptr _ => false
  | .opaqueV _ nz => !nz

/-- Deep-equality-with-zero on a field list (every field zero). -/
def fieldsAllZero : Fields → Bool
  | .nil => true
  | .cons _ _ _ v fs => isZeroValue v && fieldsAllZero fs

end

/-- Kind test: is the value of struct kind. -/
def isStructKind : Value → Bool
  | .structV _ => true
  | _ => false

/-- The source's recursion guard:
`field.Kind() == reflect.Struct || (field.Kind() == reflect.Ptr && field.Type().Elem().Kind() == reflect.Struct)`. -/
def isStructOrPtrToStruct : Value → Bool
  | .structV _ => true
  | .ptrNil z => isStructKind z
  | .ptr z => isStructKind z
  | _ => false

mutual

/-- Printed form of a value's static type (what `%v` on a
`reflect.Type` produces in the error messages). -/
def typeKey : Value → String
  | .str _ => "string"
  | .intV w _ => "int" ++ toString w
  | .uintV w _ => "uint" ++ toString w
  | .floatV _ => "float64"
  | .boolV _ => "bool"
  | .durationV _ => "time.Duration"
  | .structV fs => "struct (" ++ fieldsTypeKey fs ++ ")"
  | .ptrNil z => "*" ++ typeKey z
  | .ptr z => "*" ++ typeKey z
  | .opaqueV ty _ => ty

/-- Type rendering of a field list. -/
def fieldsTypeKey : Fields → String
  | .nil => ""
  | .cons n _ _ v fs => n ++ " " ++ typeKey v ++ "; " ++ fieldsTypeKey fs

end

/-- Wrap a string in double quotes, as Go's `%q`-style error text does. -/
def quoted (s : String) : String := "\"" ++ s ++ "\""

/-- Accumulate the value of a run of decimal digits; `none` on the first
non-digit character. -/
def decDigitsAux : List Char → Nat → Option Nat
  | [], acc => some acc
  | c :: cs, acc =>
    if c.isDigit then decDigitsAux cs (acc * 10 + (c.toNat - 48)) else none

/-- Value of a non-empty all-digit character run, `none` otherwise. -/
def decDigits : List Char → Option Nat
  | [] => none
  | c :: cs => decDigitsAux (c :: cs) 0

/-- Model of Go `strconv.ParseInt(s, 10, 64)`: optional sign, decimal
digits, 64-bit signed range check. -/
def goParseInt (s : String) : Except String Int :=
  let body : Bool × List Char :=
    match s.data with
    | '+' :: rest => (false, rest)
    | '-' :: rest => (true, rest)
    | cs => (false, cs)
  match decDigits body.2 with
  | none => .error ("strconv.ParseInt: parsing " ++ quoted s ++ ": invalid syntax")
  | some n =>
    let x : Int := if body.1 then -(n : Int) else (n : Int)
    if x < -(2 ^ 63) ∨ 2 ^ 63 ≤ x then
      .error ("strconv.ParseInt: parsing " ++ quoted s ++ ": value out of range")
    else .ok x

/-- Model of Go `strconv.ParseUint(s, 10, 64)`: no sign permitted,
decimal digits, 64-bit unsigned range check. -/
def goParseUint (s : String) : Except String Nat :=
  match decDigits s.data with
  | none => .error ("strconv.ParseUint: parsing " ++ quoted s ++ ": invalid syntax")
  | some n =>
    if 2 ^ 64 ≤ n then
      .error ("strconv.ParseUint: parsing " ++ quoted s ++ ": value out of range")
    else .ok n

/-- Model of Go `strconv.ParseBool`: the fixed vocabulary. -/
def goParseBool (s : String) : Except String Bool :=
  if s = "1" ∨ s = "t" ∨ s = "T" ∨ s = "true" ∨ s = "TRUE" ∨ s = "True" then .ok true
  else if s = "0" ∨ s = "f" ∨ s = "F" ∨ s = "false" ∨ s = "FALSE" ∨ s = "False" then .ok false
  else .error ("strconv.ParseBool: parsing " ++ quoted s ++ ": invalid syntax")

/-- Leading run of decimal digits and the remainder. -/
def spanDigits : List Char → List Char × List Char
  | [] => ([], [])
  | c :: cs =>
    if c.isDigit then
      match spanDigits cs with
      | (ds, rest) => (c :: ds, rest)
    else ([], c :: cs)

/-- Numeric value of a digit run (digits assumed). -/
def digitsToNat (ds : List Char) : Nat :=
  ds.foldl (fun acc c => acc * 10 + (c.toNat - 48)) 0

/-- Model of Go `strconv.ParseFloat(s, 64)` restricted to plain decimal
literals `[+-]digits[.digits]`; the parsed quantity is kept exactly as a
rational (no claim depends on binary rounding). -/
def goParseFloat (s : String) : Except String Rat :=
  let body : Bool × List Char :=
    match s.data with
    | '+' :: rest => (false, rest)
    | '-' :: rest => (true, rest)
    | cs => (false, cs)
  let err : Except String Rat :=
    .error ("strconv.ParseFloat: parsing " ++ quoted s ++ ": invalid syntax")
  match spanDigits body.2 with
  | ([], _) => err
  | (ds, []) =>
    let q : Rat := (digitsToNat ds : Rat)
    .ok (if body.1 then -q else q)
  | (ds, '.' :: rest) =>
    match spanDigits rest with
    | (fs, []) =>
      let q : Rat := (digitsToNat ds : Rat) + (digitsToNat fs : Rat) / ((10 : Rat) ^ fs.length)
      .ok (if body.1 then -q else q)
    | _ => err
  | _ => err

/-- Nanoseconds per duration unit; consumes the unit prefix.  Covers the
units of Go `time.ParseDuration` (`"us"` and `"µs"` spellings of
microseconds; the rarer `"μs"` alias is omitted). -/
def durUnit : List Char → Option (Int × List Char)
  | 'n' :: 's' :: r => some (1, r)
  | 'u' :: 's' :: r => some (1000, r)
  | 'µ' :: 's' :: r => some (1000, r)
  | 'm' :: 's' :: r => some (1000000, r)
  | 'm' :: r => some (60000000000, r)
  | 's' :: r => some (1000000000, r)
  | 'h' :: r => some (3600000000000, r)
  | _ => none

/-- One or more `digits[.digits]unit` components, accumulating
nanoseconds; `fuel` bounds the recursion by the input length. -/
def durComponents : Nat → List Char → Int → Option Int
  | 0, _, _ => none
  | _, [], acc => some acc
  | fuel + 1, cs, acc =>
    match spanDigits cs with
    | ([], _) => none
    | (ds, rest) =>
      let fracRest : Nat × Nat × List Char :=
        match rest with
        | '.' :: r =>
          match spanDigits r with
          | (fs, r2) => (digitsToNat fs, fs.length, r2)
        | r => (0, 0, r)
      match durUnit fracRest.2.2 with
      | none => none
      | some (u, rest3) =>
        durComponents fuel rest3
          (acc + (digitsToNat ds : Int) * u + ((fracRest.1 : Int) * u) / (10 ^ fracRest.2.1 : Int))

/-- Model of Go `time.ParseDuration`: optional sign, the special case
`"0"`, then one or more number-unit components, in nanoseconds. -/
def goParseDuration (s : String) : Except String Int :=
  let body : Bool × List Char :=
    match s.data with
    | '+' :: rest => (false, rest)
    | '-' :: rest => (true, rest)
    | cs => (false, cs)
  if body.2 = ['0'] then .ok 0
  else
    match durComponents (body.2.length + 1) body.2 0 with
    | none => .error ("time: invalid duration " ++ quoted s)
    | some v => .ok (if body.1 then -v else v)

/-- Two's-complement truncation of an integer to `w` bits: the semantics
of `reflect.Value.SetInt` (a plain Go conversion such as `int8(x)`). -/
def truncInt (w : Nat) (i : Int) : Int :=
  let m : Int := 2 ^ w
  let r := i % m
  if r < 2 ^ (w - 1) then r else r - m

/-- Truncation of a natural to `w` bits (`reflect.Value.SetUint`). -/
def truncUint (w : Nat) (n : Nat) : Nat := n % 2 ^ w

/-- `parseAndSetDefault` (the three-argument revision that the package's
`setDefaultRecursively` calls): the `time.Duration` type test comes
first, then the kind switch; a kind with no handler is an error.  The
Go function mutates `field` and returns `error`; here it returns the
written value or the error. -/
def parseAndSetDefault (field : Value) (defaultTag : String) : Except String Value :=
  match field with
  | .durationV _ =>
    match goParseDuration defaultTag with
    | .error e => .error e
    | .ok d => .ok (.durationV (truncInt 64 d))
  | .str _ => .ok (.str defaultTag)
  | .intV w _ =>
    match goParseInt defaultTag with
    | .error e => .error e
    | .ok i => .ok (.intV w (truncInt w i))
  | .uintV w _ =>
    match goParseUint defaultTag with
    | .error e => .error e
    | .ok u => .ok (.uintV w (truncUint w u))
  | .floatV _ =>
    match goParseFloat defaultTag with
    | .error e => .error e
    | .ok q => .ok (.floatV q)
  | .boolV _ =>
    match goParseBool defaultTag with
    | .error e => .error e
    | .ok b => .ok (.boolV b)
  | other => .error ("unsupported field type: " ++ typeKey other)

mutual

/-- `setDefaultRecursively` from `nested.go`: a nil pointer is allocated
(`reflect.New` yields the pointee's zero value, which is exactly the
`zelem` payload of `ptrNil`) and the function recurses into the
pointee; non-struct non-pointer values are left alone; a struct is
processed field by field.  Mutation-in-place is rendered by returning
the updated value next to the (first) error, so that partial mutations
made before an error are kept, as in the source. -/
def setDefaultRecursively (cfg : Config) : Value → Value × Option String
  | .ptrNil z =>
    match setDefaultRecursively cfg z with
    | (z1, e) => (.ptr z1, e)
  | .ptr z =>
    match setDefaultRecursively cfg z with
    | (z1, e) => (.ptr z1, e)
  | .structV fs =>
    match setDefaultFields cfg fs with
    | (fs1, e) => (.structV fs1, e)
  | v => (v, none)

/-- The `for _, fm := range metadata` loop of `setDefaultRecursively`:
per exported field, in declaration order, recurse first into a struct
or pointer-to-struct field, then, if the field is (still) zero and
carries a non-empty default tag, coerce and write the default, wrapping
a coercion error with the field's name; the first error stops the loop,
leaving later fields untouched.  `getTypeMetadata` lists only exported
fields, so unexported fields are skipped. -/
def setDefaultFields (cfg : Config) : Fields → Fields × Option String
  | .nil => (.nil, none)
  | .cons n ex tags v fs =>
    match
      (if ex then
        match (if isStructOrPtrToStruct v then setDefaultRecursively cfg v else (v, none)) with
        | (v1, some e) => (v1, some e)
        | (v1, none) =>
          if isZeroValue v1 && tagGet tags cfg.DefaultTag ≠ "" then
            match parseAndSetDefault v1 (tagGet tags cfg.DefaultTag) with
            | .error pe => (v1, some ("error setting default for field " ++ n ++ ": " ++ pe))
            | .ok v2 => (v2, none)
          else (v1, none)
      else (v, none) : Value × Option String)
    with
    | (v1, some e) => (.cons n ex tags v1 fs, some e)
    | (v1, none) =>
      match setDefaultFields cfg fs with
      | (fs1, e) => (.cons n ex tags v1 fs1, e)

end

/-- One loop iteration of `setDefaultFields`, split out for the
field-local lemmas (definitionally the body of the loop). -/
def setDefaultField (cfg : Config) (n : String) (ex : Bool)
    (tags : List (String × String)) (v : Value) : Value × Option String :=
  if ex then
    match (if isStructOrPtrToStruct v then setDefaultRecursively cfg v else (v, none)) with
    | (v1, some e) => (v1, some e)
    | (v1, none) =>
      if isZeroValue v1 && tagGet tags cfg.DefaultTag ≠ "" then
        match parseAndSetDefault v1 (tagGet tags cfg.DefaultTag) with
        | .error pe => (v1, some ("error setting default for field " ++ n ++ ": " ++ pe))
        | .ok v2 => (v2, none)
      else (v1, none)
  else (v, none)

/-- The loop body of `setDefaultFields` is `setDefaultField`. -/
theorem setDefaultFields_cons (cfg : Config) (n : String) (ex : Bool)
    (tags : List (String × String)) (v : Value) (fs : Fields) :
    setDefaultFields cfg (.cons n ex tags v fs) =
      match setDefaultField cfg n ex tags v with
      | (v1, some e) => (.cons n ex tags v1 fs, some e)
      | (v1, none) =>
        match setDefaultFields cfg fs with
        | (fs1, e) => (.cons n ex tags v1 fs1, e) := rfl

mutual

/-- `validateRequiredFields` from the source: a nil pointer fails at
once; a non-nil pointer is dereferenced; non-structs pass; a struct is
checked field by field. -/
def validateRequiredFields (cfg : Config) : Value → Option String
  | .ptrNil _ => some "nil pointer encountered in validation"
  | .ptr z => validateRequiredFields cfg z
  | .structV fs => validateFields cfg fs
  | _ => none

/-- The field loop of `validateRequiredFields`: per exported field,
recurse into struct / pointer-to-struct values first, then fail if the
field is required (`required` tag equal to `"true"`) and zero. -/
def validateFields (cfg : Config) : Fields → Option String
  | .nil => none
  | .cons n ex tags v fs =>
    if ex then
      match (if isStructOrPtrToStruct v then validateRequiredFields cfg v else none) with
      | some e => some e
      | none =>
        if tagGet tags cfg.RequiredTag = "true" && isZeroValue v then
          some ("required field " ++ n ++ " is zero")
        else validateFields cfg fs
    else validateFields cfg fs

end

/-- Numeric content of a value, for Go's numeric conversions; a float
converts to an integer type by truncation toward zero. -/
def numOf : Value → Int
  | .intV _ n => n
  | .uintV _ n => (n : Int)
  | .durationV n => n
  | .floatV q => if q < 0 then -((-q).floor) else q.floor
  | _ => 0

/-- Rational content of a value, for conversion into a float field. -/
def ratOf : Value → Rat
  | .intV _ n => (n : Rat)
  | .uintV _ n => (n : Rat)
  | .durationV n => (n : Rat)
  | .floatV q => q
  | _ => 0

/-- Kinds Go treats as numeric for conversion purposes. -/
def isNumericV : Value → Bool
  | .intV _ _ => true
  | .uintV _ _ => true
  | .floatV _ => true
  | .durationV _ => true
  | _ => false

/-- Integer kinds, which Go additionally converts to `string` (as a rune). -/
def isIntLikeV : Value → Bool
  | .intV _ _ => true
  | .uintV _ _ => true
  | .durationV _ => true
  | _ => false

/-- Go integer-to-string conversion: the rune's string, or `"�"`
outside the valid scalar range. -/
def runeStringOf (i : Int) : String :=
  if 0 ≤ i ∧ (i < 0xd800 ∨ (0xe000 ≤ i ∧ i < 0x110000)) then
    String.singleton (Char.ofNat i.toNat)
  else "�"

/-- Model of `reflect.Type.ConvertibleTo` restricted to the kinds the
embedding covers: numeric kinds inter-convert, integer kinds convert to
string (as a rune), `bool` and `string` convert only to themselves, and
pointer, struct and opaque kinds convert only to the identical type. -/
def convertibleTo (val fld : Value) : Bool :=
  match fld with
  | .str _ =>
    (match val with
     | .str _ => true
     | v => isIntLikeV v)
  | .intV _ _ => isNumericV val
  | .uintV _ _ => isNumericV val
  | .floatV _ => isNumericV val
  | .durationV _ => isNumericV val
  | .boolV _ =>
    (match val with
     | .boolV _ => true
     | _ => false)
  | .structV b =>
    (match val with
     | .structV a => fieldsTypeKey a = fieldsTypeKey b
     | _ => false)
  | .ptr b =>
    (match val with
     | .ptr a => typeKey a = typeKey b
     | .ptrNil a => typeKey a = typeKey b
     | _ => false)
  | .ptrNil b =>
    (match val with
     | .ptr a => typeKey a = typeKey b
     | .ptrNil a => typeKey a = typeKey b
     | _ => false)
  | .opaqueV b _ =>
    (match val with
     | .opaqueV a _ => a = b
     | _ => false)

/-- Model of `reflect.Value.Convert` into the field's static type
(assuming `convertibleTo`): numeric conversions truncate at the target
width; identical composite types convert to the value itself. -/
def convertValue (val fld : Value) : Value :=
  match fld with
  | .str _ =>
    (match val with
     | .str s => .str s
     | v => .str (runeStringOf (numOf v)))
  | .intV w _ => .intV w (truncInt w (numOf val))
  | .uintV w _ => .uintV w ((numOf val) % (2 ^ w : Int)).toNat
  | .floatV _ => .floatV (ratOf val)
  | .durationV _ => .durationV (truncInt 64 (numOf val))
  | .boolV _ =>
    (match val with
     | .boolV b => .boolV b
     | v => v)
  | _ => val

/-- `reflect.Value.FieldByName` together with `CanSet`: the first field
with the given name, as (exported?, value). -/
def findFieldEV : Fields → String → Option (Bool × Value)
  | .nil, _ => none
  | .cons n ex _ v fs, name => if n = name then some (ex, v) else findFieldEV fs name

/-- Write a value into the (first) field with the given name. -/
def setFieldValue : Fields → String → Value → Fields
  | .nil, _, _ => .nil
  | .cons n ex tags v fs, name, nv =>
    if n = name then .cons n ex tags nv fs
    else .cons n ex tags v (setFieldValue fs name nv)

/-- The closure built by `With(fieldName, value)`, applied to a target:
the target must be a pointer to a struct; the field must exist, be
settable, and the value's type must convert to the field's type; then
the converted value is assigned through the pointer. -/
def applyWith (fieldName : String) (value : Value) (target : Value) : Value × Option String :=
  match target with
  | .ptr (.structV fs) =>
    match findFieldEV fs fieldName with
    | none => (target, some ("no such field: " ++ fieldName))
    | some (ex, fv) =>
      if !ex then (target, some ("cannot set field: " ++ fieldName))
      else if !convertibleTo value fv then
        (target, some ("cannot convert " ++ typeKey value ++ " to " ++ typeKey fv))
      else (.ptr (.structV (setFieldValue fs fieldName (convertValue value fv))), none)
  | t => (t, some "target must be a pointer to a struct")

/-- The `for _, opt := range opts` loop of `NewWithConfig`: steps run in
order on the target pointer; the first failing step aborts the rest. -/
def applyOptions (opts : List (String × Value)) (target : Value) : Value × Option String :=
  match opts with
  | [] => (target, none)
  | (n, v) :: rest =>
    match applyWith n v target with
    | (t1, none) => applyOptions rest t1
    | (t1, some e) => (t1, some e)

/-- The entry check of `NewWithConfig` and of each option:
`v.Kind() == Ptr && v.Elem().Kind() == Struct` (false for a nil
pointer, whose `Elem` has kind `Invalid`). -/
def isPtrToStructB : Value → Bool
  | .ptr (.structV _) => true
  | _ => false

/-- `reflect.Value.Elem` on a (non-nil) pointer. -/
def elemOf : Value → Value
  | .ptr z => z
  | v => v

/-- `NewWithConfig` from `config.go`: reject a target that is not a
pointer to a struct, then run recursive defaulting, then the option
steps in order, then required-field validation, surfacing the first
error.  The Go function returns the caller's reference in every case;
here the same reference with its in-place mutations is the threaded
first component. -/
def NewWithConfig (cfg : Config) (target : Value) (opts : List (String × Value)) :
    Value × Option String :=
  match target with
  | .ptr (.structV fs) =>
    match setDefaultRecursively cfg (.structV fs) with
    | (s1, some e) => (.ptr s1, some e)
    | (s1, none) =>
      match applyOptions opts (.ptr s1) with
      | (t1, some e) => (t1, some e)
      | (t1, none) => (t1, validateRequiredFields cfg (elemOf t1))
  | t => (t, some "target must be a pointer to a struct")

/-- `New`: `NewWithConfig` with the built-in config. -/
def New (target : Value) (opts : List (String × Value)) : Value × Option String :=
  NewWithConfig defaultConfig target opts

/-! ## Field metadata extraction and the process-wide cache

`getTypeMetadata` from the source, modelled standalone: a record type is
rendered by its `Fields` skeleton (names, exportedness, tags), type
identity by a separate key (distinct Go types have distinct
`reflect.Type` identities even when structurally similar), and the
`sync.Map` by an association list threaded through the call. -/

/-- `fieldMetadata` from the source (the `Type` member, a
`reflect.Type`, is not needed by any claim and is omitted). -/
structure FieldMeta where
  index : Nat
  name : String
  defaultTag : String
  required : Bool
deriving DecidableEq

/-- The introspection loop of `getTypeMetadata` on a cache miss: every
exported field, in declaration order, with both tag values read using
the supplied config's tag names. -/
def extractMetadata (cfg : Config) : Fields → Nat → List FieldMeta
  | .nil, _ => []
  | .cons n ex tags _ fs, i =>
    if ex then
      ⟨i, n, tagGet tags cfg.DefaultTag, tagGet tags cfg.RequiredTag = "true"⟩ ::
        extractMetadata cfg fs (i + 1)
    else extractMetadata cfg fs (i + 1)

/-- The `metadataCache` contents: type identity key to stored list. -/
def MetaCache : Type := List (Nat × List FieldMeta)

/-- `sync.Map.Load` on the metadata cache. -/
def cacheLoad (cache : MetaCache) (tid : Nat) : Option (List FieldMeta) :=
  match cache with
  | [] => none
  | (k, m) :: rest => if k = tid then some m else cacheLoad rest tid

/-- `getTypeMetadata` from the source: return the cached list for the
type identity when present; otherwise introspect with the supplied
config's tag names and store the result under the type identity
(the key does not record which config produced the entry). -/
def getTypeMetadata (cache : MetaCache) (tid : Nat) (t : Fields) (cfg : Config) :
    List FieldMeta × MetaCache :=
  match cacheLoad cache tid with
  | some m => (m, cache)
  | none => (extractMetadata cfg t 0, (tid, extractMetadata cfg t 0) :: cache)

/-! ## Spec-side definitions

These are written from the spec's words, to be compared with the
definitions above (refinement claims C1 and C3). -/

/-- Modelled from the spec: run a list of phases in order on the
threaded target, stopping at and surfacing the first error. -/
def runPhases : List (Value → Value × Option String) → Value → Value × Option String
  | [], t => (t, none)
  | p :: ps, t =>
    match p t with
    | (t1, none) => runPhases ps t1
    | (t1, some e) => (t1, some e)

/-- Modelled from the spec (§4.6 step 2): the defaulting phase, acting
through the target pointer. -/
def defaultingPhase (cfg : Config) (t : Value) : Value × Option String :=
  match setDefaultRecursively cfg (elemOf t) with
  | (s1, e) => (.ptr s1, e)

/-- Modelled from the spec (§4.6 step 4): the validation phase; it
inspects but never mutates the target. -/
def validationPhase (cfg : Config) (t : Value) : Value × Option String :=
  (t, validateRequiredFields cfg (elemOf t))

/-- Modelled from the spec (§4.6): check the target, then defaulting,
then each override step in the order supplied, then validation, first
error stopping the sequence. -/
def NewSpec (cfg : Config) (target : Value) (opts : List (String × Value)) :
    Value × Option String :=
  if isPtrToStructB target then
    runPhases
      (defaultingPhase cfg :: (opts.map (fun o => applyWith o.1 o.2) ++ [validationPhase cfg]))
      target
  else (target, some "target must be a pointer to a struct")

mutual

/-- Modelled from the spec: no nil reference anywhere the validator
walks (the value itself, and recursively every exported struct or
pointer-to-struct field). -/
def noNilStructPtr : Value → Bool
  | .structV fs => noNilFields fs
  | .ptr z => noNilStructPtr z
  | .ptrNil _ => false
  | _ => true

/-- Field-list form of `noNilStructPtr`. -/
def noNilFields : Fields → Bool
  | .nil => true
  | .cons _ ex _ v fs =>
    (if ex && isStructOrPtrToStruct v then noNilStructPtr v else true) && noNilFields fs

end

mutual

/-- Modelled from the spec: every required field, at every level the
validator walks, is populated (non-zero). -/
def allRequiredPopulated (cfg : Config) : Value → Bool
  | .structV fs => allRequiredFields cfg fs
  | .ptr z => allRequiredPopulated cfg z
  | _ => true

/-- Field-list form of `allRequiredPopulated`. -/
def allRequiredFields (cfg : Config) : Fields → Bool
  | .nil => true
  | .cons _ ex tags v fs =>
    (if ex then
      (if isStructOrPtrToStruct v then allRequiredPopulated cfg v else true) &&
        !(tagGet tags cfg.RequiredTag = "true" && isZeroValue v)
    else true) && allRequiredFields cfg fs

end

/-- Modelled from the spec: the name of the first exported field, in
declaration order, that is required and zero. -/
def firstRequiredZero (cfg : Config) : Fields → Option String
  | .nil => none
  | .cons n ex tags v fs =>
    if ex && (tagGet tags cfg.RequiredTag = "true" && isZeroValue v) then some n
    else firstRequiredZero cfg fs

/-- A field list with no exported struct or pointer-to-struct field
(a flat record, every exported field scalar). -/
def flatFields : Fields → Bool
  | .nil => true
  | .cons _ ex _ v fs => (if ex then !isStructOrPtrToStruct v else true) && flatFields fs

/-- The n-th field of a field list, as (name, exported, tags, value). -/
def fieldsNth : Fields → Nat → Option (String × Bool × List (String × String) × Value)
  | .nil, _ => none
  | .cons n ex tags v _, 0 => some (n, ex, tags, v)
  | .cons _ _ _ _ fs, i + 1 => fieldsNth fs i

/-- Names of the exported fields of a record type, in declaration order. -/
def exportedNames : Fields → List String
  | .nil => []
  | .cons n ex _ _ fs => if ex then n :: exportedNames fs else exportedNames fs

/-- A record type with no exported field. -/
def noExportedFields : Fields → Bool
  | .nil => true
  | .cons _ ex _ _ fs => !ex && noExportedFields fs

/-! ## Claims -/

/-- **C4.** For every field name and value, the step built by `With`,
applied to a pointer-to-struct target, fails with `no such field: <name>`
iff no field of that name exists, fails with `cannot set field: <name>`
iff the field exists but is not settable (unexported), fails with
`cannot convert` iff the value's type is not convertible to the field's
static type, and otherwise converts the value to the field's type and
assigns it; every failing case returns the target unmodified. -/
theorem With_step_contract (n : String) (val : Value) (fs : Fields) :
    (findFieldEV fs n = none →
      applyWith n val (.ptr (.structV fs)) =
        (.ptr (.structV fs), some ("no such field: " ++ n))) ∧
    (∀ fv, findFieldEV fs n = some (false, fv) →
      applyWith n val (.ptr (.structV fs)) =
        (.ptr (.structV fs), some ("cannot set field: " ++ n))) ∧
    (∀ fv, findFieldEV fs n = some (true, fv) → convertibleTo val fv = false →
      applyWith n val (.ptr (.structV fs)) =
        (.ptr (.structV fs),
          some ("cannot convert " ++ typeKey val ++ " to " ++ typeKey fv))) ∧
    (∀ fv, findFieldEV fs n = some (true, fv) → convertibleTo val fv = true →
      applyWith n val (.ptr (.structV fs)) =
        (.ptr (.structV (setFieldValue fs n (convertValue val fv))), none)) := by
  refine ⟨fun h => ?_, fun fv h => ?_, fun fv h hc => ?_, fun fv h hc => ?_⟩
  · simp [applyWith, h]
  · simp [applyWith, h]
  · simp [applyWith, h, hc]
  · simp [applyWith, h, hc]

/-- Witness for C4: the unknown-field case at a concrete record. -/
theorem With_step_contract_witness :
    applyWith "Bogus" (.str "x")
        (.ptr (.structV (.cons "Address" true [] (.str "") .nil))) =
      (.ptr (.structV (.cons "Address" true [] (.str "") .nil)),
        some ("no such field: " ++ "Bogus")) :=
  (With_step_contract "Bogus" (.str "x") (.cons "Address" true [] (.str "") .nil)).1 rfl

/-- Introspection lists exactly the exported fields, in order. -/
theorem extractMetadata_names (cfg : Config) :
    ∀ (t : Fields) (i : Nat),
      (extractMetadata cfg t i).map (fun m => m.name) = exportedNames t
  | .nil, _ => by simp [extractMetadata, exportedNames]
  | .cons n ex tags v fs, i => by
    cases ex <;>
      simp [extractMetadata, exportedNames, extractMetadata_names cfg fs (i + 1)]

/-- A type with no exported field yields an empty descriptor list. -/
theorem extractMetadata_empty (cfg : Config) :
    ∀ (t : Fields) (i : Nat), noExportedFields t = true → extractMetadata cfg t i = []
  | .nil, _, _ => by simp [extractMetadata]
  | .cons n ex tags v fs, i, h => by
    cases ex with
    | false =>
      simp only [noExportedFields, Bool.not_false, Bool.true_and] at h
      simp [extractMetadata, extractMetadata_empty cfg fs (i + 1) h]
    | true => simp [noExportedFields] at h

/-- **C7, as stated, is false**: the cache is keyed by type identity
only, so a second call with a different `Config` returns the list read
with the first call's tag names.  Concretely: a field tagged both
`d:"x"` and `default:"y"`, first read with config `{d, r}` and then
with the built-in config, yields the `d`-read descriptors rather than
the `default`-read ones. -/
theorem getTypeMetadata_config_counterexample :
    (getTypeMetadata
        (getTypeMetadata [] 0 (.cons "A" true [("d", "x"), ("default", "y")] (.str "") .nil)
          ⟨"d", "r"⟩).2
        0 (.cons "A" true [("d", "x"), ("default", "y")] (.str "") .nil) defaultConfig).1 ≠
      extractMetadata defaultConfig
        (.cons "A" true [("d", "x"), ("default", "y")] (.str "") .nil) 0 := by
  decide

/-- **C7 (amended).** The extractor returns the cached list unchanged on
a hit (whatever config is passed), and on a miss introspects with the
supplied config's tag names and stores the result keyed by type
identity; introspection lists exactly the exported fields in
declaration order, and a type with no exported field yields an empty
list with no error. -/
theorem getTypeMetadata_contract :
    (∀ (cache : MetaCache) (tid : Nat) (t : Fields) (cfg : Config) (m : List FieldMeta),
      cacheLoad cache tid = some m → getTypeMetadata cache tid t cfg = (m, cache)) ∧
    (∀ (cache : MetaCache) (tid : Nat) (t : Fields) (cfg : Config),
      cacheLoad cache tid = none →
        getTypeMetadata cache tid t cfg =
          (extractMetadata cfg t 0, (tid, extractMetadata cfg t 0) :: cache)) ∧
    (∀ (t : Fields) (cfg : Config) (i : Nat),
      (extractMetadata cfg t i).map (fun m => m.name) = exportedNames t) ∧
    (∀ (t : Fields) (cfg : Config) (i : Nat),
      noExportedFields t = true → extractMetadata cfg t i = []) := by
  refine ⟨fun cache tid t cfg m h => ?_, fun cache tid t cfg h => ?_,
    fun t cfg i => extractMetadata_names cfg t i,
    fun t cfg i h => extractMetadata_empty cfg t i h⟩
  · simp [getTypeMetadata, h]
  · simp [getTypeMetadata, h]

/-- Witness for C7 (amended): a concrete hit returns the stored entry. -/
theorem getTypeMetadata_contract_witness :
    getTypeMetadata [(7, [⟨0, "A", "x", false⟩])] 7 .nil defaultConfig =
      ([⟨0, "A", "x", false⟩], [(7, [⟨0, "A", "x", false⟩])]) :=
  getTypeMetadata_contract.1 [(7, [⟨0, "A", "x", false⟩])] 7 .nil defaultConfig
    [⟨0, "A", "x", false⟩] rfl

/-- **C8, as stated, is false**: the coercer parses every integer
default at 64-bit width and then stores through `SetInt`, which
truncates; a default of `"300"` on an 8-bit field is out of the field's
range yet produces no error — the field silently becomes `44`. -/
theorem int_default_width_counterexample :
    setDefaultField defaultConfig "Small" true [("default", "300")] (.intV 8 0) =
        (.intV 8 44, none) ∧
      ¬(300 : Int) < 2 ^ (8 - 1) := by
  exact ⟨rfl, by norm_num⟩

/-- **C8 (amended).** For a signed integer field of any width carrying a
non-empty default annotation: a non-numeric annotation, or one out of
range for 64 bits, makes defaulting return the parse error wrapped with
the field's name as an ordinary error value; one that parses as a
64-bit integer is stored truncated (two's-complement) to the field's
width — out-of-range values for a narrower width are truncated, not
rejected.  Unsigned fields behave the same through `ParseUint`. -/
theorem int_default_contract (cfg : Config) (n : String)
    (tags : List (String × String)) (w : Nat) :
    (tagGet tags cfg.DefaultTag ≠ "" →
      (∀ e, goParseInt (tagGet tags cfg.DefaultTag) = .error e →
        setDefaultField cfg n true tags (.intV w 0) =
          (.intV w 0, some ("error setting default for field " ++ n ++ ": " ++ e))) ∧
      (∀ i, goParseInt (tagGet tags cfg.DefaultTag) = .ok i →
        setDefaultField cfg n true tags (.intV w 0) = (.intV w (truncInt w i), none))) ∧
    (tagGet tags cfg.DefaultTag ≠ "" →
      (∀ e, goParseUint (tagGet tags cfg.DefaultTag) = .error e →
        setDefaultField cfg n true tags (.uintV w 0) =
          (.uintV w 0, some ("error setting default for field " ++ n ++ ": " ++ e))) ∧
      (∀ u, goParseUint (tagGet tags cfg.DefaultTag) = .ok u →
        setDefaultField cfg n true tags (.uintV w 0) = (.uintV w (truncUint w u), none))) := by
  refine ⟨fun ht => ⟨fun e he => ?_, fun i hi => ?_⟩, fun ht => ⟨fun e he => ?_, fun u hu => ?_⟩⟩
  · simp [setDefaultField, isStructOrPtrToStruct, isZeroValue, ht, parseAndSetDefault, he]
  · simp [setDefaultField, isStructOrPtrToStruct, isZeroValue, ht, parseAndSetDefault, hi]
  · simp [setDefaultField, isStructOrPtrToStruct, isZeroValue, ht, parseAndSetDefault, he]
  · simp [setDefaultField, isStructOrPtrToStruct, isZeroValue, ht, parseAndSetDefault, hu]

/-- Witness for C8 (amended): non-numeric default on an int field. -/
theorem int_default_contract_witness :
    setDefaultField defaultConfig "MaxConns" true [("default", "x1")] (.intV 64 0) =
      (.intV 64 0,
        some ("error setting default for field " ++ "MaxConns" ++ ": " ++
          "strconv.ParseInt: parsing \"x1\": invalid syntax")) :=
  ((int_default_contract defaultConfig "MaxConns" [("default", "x1")] 64).1
    (by decide)).1 _ rfl

/-- **C9.** A zero field whose kind has no coercion rule but which
carries a non-empty default annotation makes the defaulting phase fail
with an `unsupported field type` error naming the type (wrapped with
the field's name), rather than silently skipping the field. -/
theorem unsupported_kind_default_error (cfg : Config) (n ty : String)
    (tags : List (String × String)) (fs : Fields) :
    tagGet tags cfg.DefaultTag ≠ "" →
    setDefaultRecursively cfg (.structV (.cons n true tags (.opaqueV ty false) fs)) =
      (.structV (.cons n true tags (.opaqueV ty false) fs),
        some ("error setting default for field " ++ n ++ ": " ++
          ("unsupported field type: " ++ ty))) := by
  intro ht
  simp [setDefaultRecursively, setDefaultFields, isStructOrPtrToStruct, isZeroValue, ht,
    parseAndSetDefault, typeKey]

/-- Witness for C9: a `func()`-typed field with a default annotation. -/
theorem unsupported_kind_default_error_witness :
    setDefaultRecursively defaultConfig
        (.structV (.cons "Hook" true [("default", "nop")] (.opaqueV "func()" false) .nil)) =
      (.structV (.cons "Hook" true [("default", "nop")] (.opaqueV "func()" false) .nil),
        some ("error setting default for field " ++ "Hook" ++ ": " ++
          ("unsupported field type: " ++ "func()"))) :=
  unsupported_kind_default_error defaultConfig "Hook" "func()" [("default", "nop")] .nil
    (by decide)

/-- The tail of `NewSpec`'s phase list is exactly the option loop of
`NewWithConfig` followed by validation on the threaded target. -/
theorem runPhases_options_validation (cfg : Config) :
    ∀ (opts : List (String × Value)) (t : Value),
      runPhases (opts.map (fun o => applyWith o.1 o.2) ++ [validationPhase cfg]) t =
        match applyOptions opts t with
        | (t1, none) => (t1, validateRequiredFields cfg (elemOf t1))
        | (t1, some e) => (t1, some e)
  | [], t => by
    cases h : validateRequiredFields cfg (elemOf t) <;>
      simp [runPhases, validationPhase, applyOptions, h]
  | (n, v) :: rest, t => by
    cases h : applyWith n v t with
    | mk t1 e =>
      cases e with
      | none =>
        simp [runPhases, h, applyOptions, runPhases_options_validation cfg rest t1]
      | some e => simp [runPhases, h, applyOptions]

/-- **C1.** For every target, config and override-step sequence:
a target that is not a pointer to a struct fails immediately with
`target must be a pointer to a struct` and without mutation; otherwise
`New`/`NewWithConfig` behave as the spec's phase sequence — recursive
defaulting, then each override step in the order supplied, then
required-field validation, stopping at and surfacing the first error of
any phase — and the first return value is the threaded caller reference
(with its in-place mutations) in every case. -/
theorem NewWithConfig_orchestration :
    (∀ (cfg : Config) (t : Value) (opts : List (String × Value)),
      isPtrToStructB t = false →
        NewWithConfig cfg t opts = (t, some "target must be a pointer to a struct")) ∧
    (∀ (cfg : Config) (t : Value) (opts : List (String × Value)),
      NewWithConfig cfg t opts = NewSpec cfg t opts) ∧
    (∀ (t : Value) (opts : List (String × Value)), New t opts = NewSpec defaultConfig t opts) := by
  have key : ∀ (cfg : Config) (t : Value) (opts : List (String × Value)),
      NewWithConfig cfg t opts = NewSpec cfg t opts := by
    intro cfg t opts
    match t with
    | .ptr (.structV fs) =>
      rw [NewSpec]
      simp only [isPtrToStructB, if_true]
      cases hd : setDefaultRecursively cfg (.structV fs) with
      | mk s1 e =>
        cases e with
        | none =>
          cases ho : applyOptions opts (.ptr s1) with
          | mk t1 e1 =>
            cases e1 <;>
              simp [NewWithConfig, hd, runPhases, defaultingPhase, elemOf,
                runPhases_options_validation cfg opts (.ptr s1), ho]
        | some e => simp [NewWithConfig, hd, runPhases, defaultingPhase, elemOf]
    | .str s => rfl
    | .intV w n => rfl
    | .uintV w n => rfl
    | .floatV q => rfl
    | .boolV b => rfl
    | .durationV n => rfl
    | .structV fs => rfl
    | .ptrNil z => rfl
    | .opaqueV ty nz => rfl
    | .ptr (.str s) => rfl
    | .ptr (.intV w n) => rfl
    | .ptr (.uintV w n) => rfl
    | .ptr (.floatV q) => rfl
    | .ptr (.boolV b) => rfl
    | .ptr (.durationV n) => rfl
    | .ptr (.ptrNil z) => rfl
    | .ptr (.ptr z) => rfl
    | .ptr (.opaqueV ty nz) => rfl
  refine ⟨fun cfg t opts h => ?_, key, fun t opts => key defaultConfig t opts⟩
  rw [key, NewSpec, h]
  simp

/-- Witness for C1: a non-pointer target is rejected unmutated. -/
theorem NewWithConfig_orchestration_witness :
    NewWithConfig defaultConfig (.str "oops") [] =
      (.str "oops", some "target must be a pointer to a struct") :=
  NewWithConfig_orchestration.1 defaultConfig (.str "oops") [] rfl

/-- A failing option step leaves the target exactly as it was. -/
theorem applyWith_err_unchanged (n : String) (v : Value) :
    ∀ (t t2 : Value) (e : String), applyWith n v t = (t2, some e) → t2 = t := by
  intro t t2 e h
  match t with
  | .ptr (.structV fs) =>
    simp only [applyWith] at h
    cases hf : findFieldEV fs n with
    | none =>
      rw [hf] at h
      exact (Prod.mk.injEq _ _ _ _ ▸ h).1.symm
    | some p =>
      obtain ⟨ex, fv⟩ := p
      rw [hf] at h
      cases ex with
      | false =>
        simp only [Bool.not_false, if_true] at h
        exact (Prod.mk.injEq _ _ _ _ ▸ h).1.symm
      | true =>
        cases hc : convertibleTo v fv with
        | false =>
          simp only [hc, Bool.not_true, Bool.not_false, if_false, if_true] at h
          exact (Prod.mk.injEq _ _ _ _ ▸ h).1.symm
        | true =>
          simp only [hc, Bool.not_true, if_false] at h
          exact absurd (Prod.mk.injEq _ _ _ _ ▸ h).2 (by simp)
  | .str s => exact (Prod.mk.injEq _ _ _ _ ▸ h).1.symm
  | .intV w m => exact (Prod.mk.injEq _ _ _ _ ▸ h).1.symm
  | .uintV w m => exact (Prod.mk.injEq _ _ _ _ ▸ h).1.symm
  | .floatV q => exact (Prod.mk.injEq _ _ _ _ ▸ h).1.symm
  | .boolV b => exact (Prod.mk.injEq _ _ _ _ ▸ h).1.symm
  | .durationV m => exact (Prod.mk.injEq _ _ _ _ ▸ h).1.symm
  | .structV gs => exact (Prod.mk.injEq _ _ _ _ ▸ h).1.symm
  | .ptrNil z => exact (Prod.mk.injEq _ _ _ _ ▸ h).1.symm
  | .opaqueV ty nz => exact (Prod.mk.injEq _ _ _ _ ▸ h).1.symm
  | .ptr (.str s) => exact (Prod.mk.injEq _ _ _ _ ▸ h).1.symm
  | .ptr (.intV w m) => exact (Prod.mk.injEq _ _ _ _ ▸ h).1.symm
  | .ptr (.uintV w m) => exact (Prod.mk.injEq _ _ _ _ ▸ h).1.symm
  | .ptr (.floatV q) => exact (Prod.mk.injEq _ _ _ _ ▸ h).1.symm
  | .ptr (.boolV b) => exact (Prod.mk.injEq _ _ _ _ ▸ h).1.symm
  | .ptr (.durationV m) => exact (Prod.mk.injEq _ _ _ _ ▸ h).1.symm
  | .ptr (.ptrNil z) => exact (Prod.mk.injEq _ _ _ _ ▸ h).1.symm
  | .ptr (.ptr z) => exact (Prod.mk.injEq _ _ _ _ ▸ h).1.symm
  | .ptr (.opaqueV ty nz) => exact (Prod.mk.injEq _ _ _ _ ▸ h).1.symm

/-- `convertibleTo` and `convertValue` into a field depend only on the
field's static type, which a successful conversion preserves: writing a
converted value into the field changes neither later convertibility
checks nor later conversions into it. -/
theorem convert_stable (v1 v2 fv : Value) (h : convertibleTo v1 fv = true) :
    convertibleTo v2 (convertValue v1 fv) = convertibleTo v2 fv ∧
      convertValue v2 (convertValue v1 fv) = convertValue v2 fv := by
  cases fv <;> cases v1 <;>
    simp_all [convertibleTo, convertValue, isNumericV, isIntLikeV]

/-- Looking up the field just written finds it, exported as before. -/
theorem findFieldEV_set (n : String) (u : Value) :
    ∀ fs : Fields,
      findFieldEV (setFieldValue fs n u) n =
        (findFieldEV fs n).map (fun p => (p.1, u))
  | .nil => by simp [setFieldValue, findFieldEV]
  | .cons m ex tags v fs => by
    by_cases hm : m = n
    · simp [setFieldValue, findFieldEV, hm]
    · simp [setFieldValue, findFieldEV, hm, findFieldEV_set n u fs]

/-- Writing the same field twice keeps only the later write. -/
theorem setFieldValue_set (n : String) (u u' : Value) :
    ∀ fs : Fields,
      setFieldValue (setFieldValue fs n u) n u' = setFieldValue fs n u'
  | .nil => by simp [setFieldValue]
  | .cons m ex tags v fs => by
    by_cases hm : m = n
    · simp [setFieldValue, hm]
    · simp [setFieldValue, hm, setFieldValue_set n u u' fs]

/-- Splitting the option loop at any point. -/
theorem applyOptions_append (a b : List (String × Value)) :
    ∀ t : Value,
      applyOptions (a ++ b) t =
        match applyOptions a t with
        | (t1, none) => applyOptions b t1
        | (t1, some e) => (t1, some e) := by
  induction a with
  | nil => intro t; simp [applyOptions]
  | cons o rest ih =>
    intro t
    obtain ⟨n, v⟩ := o
    cases h : applyWith n v t with
    | mk t1 e =>
      cases e <;> simp [applyOptions, h, ih]

/-- Shape of a successful option step: the target was a pointer to a
struct, the field was found, exported and convertible, and the step
wrote the converted value. -/
theorem applyWith_ok_shape (n : String) (v : Value) :
    ∀ t t1 : Value, applyWith n v t = (t1, none) →
      ∃ fs fv, t = .ptr (.structV fs) ∧ findFieldEV fs n = some (true, fv) ∧
        convertibleTo v fv = true ∧
        t1 = .ptr (.structV (setFieldValue fs n (convertValue v fv))) := by
  intro t t1 h
  match t with
  | .ptr (.structV fs) =>
    simp only [applyWith] at h
    cases hf : findFieldEV fs n with
    | none => rw [hf] at h; simp at h
    | some p =>
      obtain ⟨ex, fv⟩ := p
      rw [hf] at h
      cases ex with
      | false => simp at h
      | true =>
        cases hc : convertibleTo v fv with
        | false => simp [hc] at h
        | true =>
          simp only [hc, Bool.not_true, Bool.false_eq_true, if_false, Prod.mk.injEq] at h
          exact ⟨fs, fv, rfl, hf, hc, h.1.symm⟩
  | .str s => simp [applyWith] at h
  | .intV w m => simp [applyWith] at h
  | .uintV w m => simp [applyWith] at h
  | .floatV q => simp [applyWith] at h
  | .boolV b => simp [applyWith] at h
  | .durationV m => simp [applyWith] at h
  | .structV gs => simp [applyWith] at h
  | .ptrNil z => simp [applyWith] at h
  | .opaqueV ty nz => simp [applyWith] at h
  | .ptr (.str s) => simp [applyWith] at h
  | .ptr (.intV w m) => simp [applyWith] at h
  | .ptr (.uintV w m) => simp [applyWith] at h
  | .ptr (.floatV q) => simp [applyWith] at h
  | .ptr (.boolV b) => simp [applyWith] at h
  | .ptr (.durationV m) => simp [applyWith] at h
  | .ptr (.ptrNil z) => simp [applyWith] at h
  | .ptr (.ptr z) => simp [applyWith] at h
  | .ptr (.opaqueV ty nz) => simp [applyWith] at h

/-- **C5.** Override steps apply strictly in the order supplied: when
two successful steps set the same field, applying the later step alone
reaches the same final record (the later value wins); and the first
failing step leaves the record as the preceding successful steps and
the defaulting phase built it, aborts the remaining steps and
validation, and surfaces its error (no rollback). -/
theorem override_order_contract :
    (∀ (n : String) (v1 v2 : Value) (t t1 t2 : Value),
      applyWith n v1 t = (t1, none) → applyWith n v2 t1 = (t2, none) →
        applyWith n v2 t = (t2, none)) ∧
    (∀ (cfg : Config) (fs : Fields) (s1 : Value) (opts1 opts2 : List (String × Value))
        (n : String) (v t1 t2 : Value) (e : String),
      setDefaultRecursively cfg (.structV fs) = (s1, none) →
      applyOptions opts1 (.ptr s1) = (t1, none) →
      applyWith n v t1 = (t2, some e) →
        t2 = t1 ∧
          NewWithConfig cfg (.ptr (.structV fs)) (opts1 ++ (n, v) :: opts2) = (t1, some e)) := by
  constructor
  · intro n v1 v2 t t1 t2 h1 h2
    obtain ⟨fs, fv, rfl, hf, hc, rfl⟩ := applyWith_ok_shape n v1 t t1 h1
    obtain ⟨fs2, fv2, hshape, hf2, hc2, rfl⟩ := applyWith_ok_shape n v2 _ t2 h2
    obtain ⟨hfs2, hfv2⟩ : fs2 = setFieldValue fs n (convertValue v1 fv) ∧
        fv2 = convertValue v1 fv := by
      have := hshape
      simp only [Value.ptr.injEq, Value.structV.injEq] at this
      subst this
      rw [findFieldEV_set n (convertValue v1 fv) fs, hf] at hf2
      simp at hf2
      exact ⟨rfl, hf2.symm⟩
    subst hfs2; subst hfv2
    obtain ⟨hcst, hvst⟩ := convert_stable v1 v2 fv hc
    rw [hcst] at hc2
    simp only [applyWith, hf, hc2, Bool.not_true, Bool.false_eq_true, if_false,
      Prod.mk.injEq]
    rw [setFieldValue_set, hvst]
    exact ⟨rfl, trivial⟩
  · intro cfg fs s1 opts1 opts2 n v t1 t2 e hd ho hw
    have ht : t2 = t1 := applyWith_err_unchanged n v t1 t2 e hw
    subst ht
    refine ⟨rfl, ?_⟩
    simp only [NewWithConfig, hd]
    rw [applyOptions_append opts1 ((n, v) :: opts2) (.ptr s1), ho]
    simp [applyOptions, hw]

/-- Witness for C5: two overrides of the same field, the later wins. -/
theorem override_order_contract_witness :
    applyWith "A" (.str "second")
        (.ptr (.structV (.cons "A" true [] (.str "") .nil))) =
      (.ptr (.structV (.cons "A" true [] (.str "second") .nil)), none) :=
  override_order_contract.1 "A" (.str "first") (.str "second")
    (.ptr (.structV (.cons "A" true [] (.str "") .nil)))
    (.ptr (.structV (.cons "A" true [] (.str "first") .nil)))
    (.ptr (.structV (.cons "A" true [] (.str "second") .nil))) rfl rfl

/-- Unfolding of the defaulting walk at a struct value. -/
theorem setDefaultRecursively_structV (cfg : Config) (fs : Fields) :
    setDefaultRecursively cfg (.structV fs) =
      (.structV (setDefaultFields cfg fs).1, (setDefaultFields cfg fs).2) := by
  cases h : setDefaultFields cfg fs with
  | mk fs1 e => simp [setDefaultRecursively, h]

/-- Unfolding of the defaulting walk at a nil pointer: allocate the
pointee's zero value, then recurse into it. -/
theorem setDefaultRecursively_ptrNil (cfg : Config) (z : Value) :
    setDefaultRecursively cfg (.ptrNil z) =
      (.ptr (setDefaultRecursively cfg z).1, (setDefaultRecursively cfg z).2) := by
  cases h : setDefaultRecursively cfg z with
  | mk z1 e => simp [setDefaultRecursively, h]

/-- Unfolding of the defaulting walk at a non-nil pointer. -/
theorem setDefaultRecursively_ptr (cfg : Config) (z : Value) :
    setDefaultRecursively cfg (.ptr z) =
      (.ptr (setDefaultRecursively cfg z).1, (setDefaultRecursively cfg z).2) := by
  cases h : setDefaultRecursively cfg z with
  | mk z1 e => simp [setDefaultRecursively, h]

/-- A successful field loop acts pointwise: every field position holds
the result of its own loop iteration, and each iteration succeeded. -/
theorem setDefaultFields_ok_nth (cfg : Config) :
    ∀ (fs fs1 : Fields), setDefaultFields cfg fs = (fs1, none) →
      ∀ (i : Nat) (n : String) (ex : Bool) (tags : List (String × String)) (v : Value),
        fieldsNth fs i = some (n, ex, tags, v) →
          fieldsNth fs1 i = some (n, ex, tags, (setDefaultField cfg n ex tags v).1) ∧
            (setDefaultField cfg n ex tags v).2 = none
  | .nil, fs1, h, i, n, ex, tags, v, hnth => by simp [fieldsNth] at hnth
  | .cons m mex mtags mv rest, fs1, h, i, n, ex, tags, v, hnth => by
    rw [setDefaultFields_cons] at h
    cases hF : setDefaultField cfg m mex mtags mv with
    | mk v1 e =>
      cases e with
      | some e => simp [hF] at h
      | none =>
        cases hR : setDefaultFields cfg rest with
        | mk rest1 e2 =>
          simp only [hF, hR] at h
          obtain ⟨hfs1, he2⟩ := Prod.mk.injEq _ _ _ _ ▸ h
          subst hfs1
          cases i with
          | zero =>
            simp only [fieldsNth, Option.some.injEq] at hnth
            obtain ⟨rfl, rfl, rfl, rfl⟩ := hnth
            refine ⟨?_, by simp [hF]⟩
            simp [fieldsNth, hF]
          | succ j =>
            simp only [fieldsNth] at hnth ⊢
            exact setDefaultFields_ok_nth cfg rest rest1 (by rw [hR, he2]) j n ex tags v hnth

/-- **C6.** A nil pointer-to-struct field is allocated by the defaulting
phase and the nested record's own defaults applied inside it,
recursively, before the parent slot's zero-check runs (the slot ends as
the freshly allocated, recursively defaulted reference, not as a parsed
default) — already with zero override steps supplied. -/
theorem nested_nil_pointer_defaulting (cfg : Config) (fs : Fields) (i : Nat)
    (n : String) (tags : List (String × String)) (gs : Fields) (t1 : Value) :
    fieldsNth fs i = some (n, true, tags, .ptrNil (.structV gs)) →
    NewWithConfig cfg (.ptr (.structV fs)) [] = (t1, none) →
      ∃ gs1 fs1, setDefaultRecursively cfg (.structV gs) = (.structV gs1, none) ∧
        t1 = .ptr (.structV fs1) ∧
        fieldsNth fs1 i = some (n, true, tags, .ptr (.structV gs1)) := by
  intro hnth hok
  simp only [NewWithConfig, setDefaultRecursively_structV cfg fs] at hok
  cases hd : setDefaultFields cfg fs with
  | mk fs1 e =>
    cases e with
    | some e => simp [hd] at hok
    | none =>
      simp only [hd, applyOptions] at hok
      cases hv : validateRequiredFields cfg (elemOf (.ptr (.structV fs1))) with
      | some e => rw [hv] at hok; simp at hok
      | none =>
        rw [hv] at hok
        obtain ⟨ht1, -⟩ := Prod.mk.injEq _ _ _ _ ▸ hok
        obtain ⟨hpos, hiter⟩ := setDefaultFields_ok_nth cfg fs fs1 hd i n true tags
          (.ptrNil (.structV gs)) hnth
        rw [setDefaultField, if_pos rfl] at hpos hiter
        simp only [isStructOrPtrToStruct, isStructKind, setDefaultRecursively_ptrNil,
          setDefaultRecursively_structV] at hpos hiter
        cases hg : setDefaultFields cfg gs with
        | mk gs1 eg =>
          cases eg with
          | some eg => simp [hg] at hpos hiter
          | none =>
            simp only [hg, isZeroValue, Bool.false_and, Bool.false_eq_true, if_false] at hpos hiter
            exact ⟨gs1, fs1, by simp [setDefaultRecursively_structV, hg], ht1.symm, hpos⟩

/-- Witness for C6: the repo's own `Nested *NestedConfig` scenario. -/
theorem nested_nil_pointer_defaulting_witness :
    ∃ gs1 fs1,
      setDefaultRecursively defaultConfig
          (.structV (.cons "Port" true [("default", "8080")] (.intV 64 0) .nil)) =
        (.structV gs1, none) ∧
      (.ptr (.structV (.cons "Nested" true []
          (.ptr (.structV (.cons "Port" true [("default", "8080")] (.intV 64 8080) .nil)))
          .nil)) : Value) = .ptr (.structV fs1) ∧
      fieldsNth fs1 0 = some ("Nested", true, [], .ptr (.structV gs1)) :=
  nested_nil_pointer_defaulting defaultConfig
    (.cons "Nested" true []
      (.ptrNil (.structV (.cons "Port" true [("default", "8080")] (.intV 64 0) .nil))) .nil)
    0 "Nested" [] (.cons "Port" true [("default", "8080")] (.intV 64 0) .nil)
    (.ptr (.structV (.cons "Nested" true []
      (.ptr (.structV (.cons "Port" true [("default", "8080")] (.intV 64 8080) .nil)))
      .nil)))
    rfl rfl

mutual

/-- The validator succeeds on a value exactly when no nil reference is
met and every required field it walks is populated. -/
theorem validate_none_iffV (cfg : Config) :
    ∀ v : Value,
      validateRequiredFields cfg v = none ↔
        (noNilStructPtr v = true ∧ allRequiredPopulated cfg v = true)
  | .str s => by simp [validateRequiredFields, noNilStructPtr, allRequiredPopulated]
  | .intV w m => by simp [validateRequiredFields, noNilStructPtr, allRequiredPopulated]
  | .uintV w m => by simp [validateRequiredFields, noNilStructPtr, allRequiredPopulated]
  | .floatV q => by simp [validateRequiredFields, noNilStructPtr, allRequiredPopulated]
  | .boolV b => by simp [validateRequiredFields, noNilStructPtr, allRequiredPopulated]
  | .durationV m => by simp [validateRequiredFields, noNilStructPtr, allRequiredPopulated]
  | .opaqueV ty nz => by simp [validateRequiredFields, noNilStructPtr, allRequiredPopulated]
  | .ptrNil z => by simp [validateRequiredFields, noNilStructPtr]
  | .ptr z => by
    simp [validateRequiredFields, noNilStructPtr, allRequiredPopulated,
      validate_none_iffV cfg z]
  | .structV fs => by
    simp [validateRequiredFields, noNilStructPtr, allRequiredPopulated,
      validate_none_iffF cfg fs]

/-- Field-loop form of `validate_none_iffV`. -/
theorem validate_none_iffF (cfg : Config) :
    ∀ fs : Fields,
      validateFields cfg fs = none ↔
        (noNilFields fs = true ∧ allRequiredFields cfg fs = true)
  | .nil => by simp [validateFields, noNilFields, allRequiredFields]
  | .cons n ex tags v fs => by
    have IHv := validate_none_iffV cfg v
    have IHf := validate_none_iffF cfg fs
    cases ex with
    | false =>
      simp [validateFields, noNilFields, allRequiredFields, IHf]
    | true =>
      cases hv : validateRequiredFields cfg v <;>
        cases hz : (tagGet tags cfg.RequiredTag = "true" && isZeroValue v) <;>
        by_cases hs : isStructOrPtrToStruct v = true <;>
          simp_all [validateFields, noNilFields, allRequiredFields] <;>
          (split <;> simp_all) <;>
          exact fun _ _ => Decidable.not_or_of_imp hz

end

mutual

/-- Every validator error is the nil-pointer message or a
required-field message. -/
theorem validate_err_formV (cfg : Config) :
    ∀ (v : Value) (e : String), validateRequiredFields cfg v = some e →
      e = "nil pointer encountered in validation" ∨
        ∃ nm, e = "required field " ++ nm ++ " is zero"
  | .str s, e, h => by simp [validateRequiredFields] at h
  | .intV w m, e, h => by simp [validateRequiredFields] at h
  | .uintV w m, e, h => by simp [validateRequiredFields] at h
  | .floatV q, e, h => by simp [validateRequiredFields] at h
  | .boolV b, e, h => by simp [validateRequiredFields] at h
  | .durationV m, e, h => by simp [validateRequiredFields] at h
  | .opaqueV ty nz, e, h => by simp [validateRequiredFields] at h
  | .ptrNil z, e, h => by
    left
    simpa [validateRequiredFields] using h.symm
  | .ptr z, e, h =>
    validate_err_formV cfg z e (by simpa [validateRequiredFields] using h)
  | .structV fs, e, h =>
    validate_err_formF cfg fs e (by simpa [validateRequiredFields] using h)

/-- Field-loop form of `validate_err_formV`. -/
theorem validate_err_formF (cfg : Config) :
    ∀ (fs : Fields) (e : String), validateFields cfg fs = some e →
      e = "nil pointer encountered in validation" ∨
        ∃ nm, e = "required field " ++ nm ++ " is zero"
  | .nil, e, h => by simp [validateFields] at h
  | .cons n ex tags v fs, e, h => by
    cases ex with
    | false => exact validate_err_formF cfg fs e (by simpa [validateFields] using h)
    | true =>
      by_cases hs : isStructOrPtrToStruct v = true
      · cases hv : validateRequiredFields cfg v with
        | some e1 =>
          have : e1 = e := by simpa [validateFields, hs, hv] using h
          exact this ▸ validate_err_formV cfg v e1 hv
        | none =>
          cases hz : (tagGet tags cfg.RequiredTag = "true" && isZeroValue v) with
          | true =>
            right
            exact ⟨n, by simpa [validateFields, hs, hv, hz] using h.symm⟩
          | false =>
            exact validate_err_formF cfg fs e (by simpa [validateFields, hs, hv, hz] using h)
      · cases hz : (tagGet tags cfg.RequiredTag = "true" && isZeroValue v) with
        | true =>
          right
          exact ⟨n, by simpa [validateFields, hs, hz] using h.symm⟩
        | false =>
          exact validate_err_formF cfg fs e (by simpa [validateFields, hs, hz] using h)

end

/-- On a flat record (no struct or pointer-to-struct field), the
validator reports exactly the first required zero field, in declaration
order. -/
theorem validate_flat (cfg : Config) :
    ∀ fs : Fields, flatFields fs = true →
      validateFields cfg fs =
        (firstRequiredZero cfg fs).map (fun nm => "required field " ++ nm ++ " is zero")
  | .nil, _ => by simp [validateFields, firstRequiredZero]
  | .cons n ex tags v fs, h => by
    cases ex with
    | false =>
      have hflat : flatFields fs = true := by simpa [flatFields] using h
      simp [validateFields, firstRequiredZero, validate_flat cfg fs hflat]
    | true =>
      have h2 : (!isStructOrPtrToStruct v) = true ∧ flatFields fs = true := by
        simpa [flatFields] using h
      have hsp : isStructOrPtrToStruct v = false := by simpa using h2.1
      cases hz : (tagGet tags cfg.RequiredTag = "true" && isZeroValue v) with
      | true => simp [validateFields, firstRequiredZero, hsp, hz]
      | false => simp [validateFields, firstRequiredZero, hsp, hz, validate_flat cfg fs h2.2]

/-- **C3, as stated, is false**: the validator's nil-pointer failure is
not tied to the reference being *required* — a record whose only field
is a non-required nil pointer-to-struct reference, with every required
field (vacuously) populated, still fails with the nil-pointer error. -/
theorem validator_nil_counterexample :
    validateRequiredFields defaultConfig
        (.structV (.cons "P" true [] (.ptrNil (.structV .nil)) .nil)) =
      some "nil pointer encountered in validation" ∧
    allRequiredPopulated defaultConfig
        (.structV (.cons "P" true [] (.ptrNil (.structV .nil)) .nil)) = true :=
  ⟨rfl, rfl⟩

/-- **C3 (amended).** The validator walks the record in declaration
order, recursing into each struct / pointer-to-struct field before
checking that same field's required flag; it succeeds exactly when no
nil pointer-to-struct reference is met (required or not) and every
required field at every level is populated; every failure is either the
`nil pointer encountered in validation` error or a
`required field <name> is zero` error; and on a flat record the error
names the first required zero field in declaration order. -/
theorem validator_contract (cfg : Config) :
    (∀ v : Value,
      validateRequiredFields cfg v = none ↔
        (noNilStructPtr v = true ∧ allRequiredPopulated cfg v = true)) ∧
    (∀ (v : Value) (e : String), validateRequiredFields cfg v = some e →
      e = "nil pointer encountered in validation" ∨
        ∃ nm, e = "required field " ++ nm ++ " is zero") ∧
    (∀ fs : Fields, flatFields fs = true →
      validateRequiredFields cfg (.structV fs) =
        (firstRequiredZero cfg fs).map (fun nm => "required field " ++ nm ++ " is zero")) :=
  ⟨validate_none_iffV cfg,
   validate_err_formV cfg,
   fun fs h => by
     simpa [validateRequiredFields] using validate_flat cfg fs h⟩

/-- Witness for C3 (amended): the repo's `Field1` scenario via the
flat-record part of the contract. -/
theorem validator_contract_witness :
    validateRequiredFields defaultConfig
        (.structV (.cons "Field1" true [("default", ""), ("required", "true")] (.str "") .nil)) =
      (firstRequiredZero defaultConfig
          (.cons "Field1" true [("default", ""), ("required", "true")] (.str "") .nil)).map
        (fun nm => "required field " ++ nm ++ " is zero") :=
  (validator_contract defaultConfig).2.2
    (.cons "Field1" true [("default", ""), ("required", "true")] (.str "") .nil) rfl

mutual

/-- Modelled from the spec: what defaulting may do to a value slot of
struct or pointer kind — recurse fieldwise into a struct, allocate and
fill an absent reference, recurse behind a present reference; anything
else must stay exactly as it was. -/
def defaultWriteV : Config → Value → Value → Prop
  | cfg, .structV gs, .structV gs1 => defaultWriteF cfg gs gs1
  | _, .ptrNil _, _ => True
  | cfg, .ptr a, .ptr a1 => defaultWriteV cfg a a1
  | _, v, v1 => v1 = v

/-- Modelled from the spec: the write discipline of the defaulting
phase on a field list — metadata untouched; an unexported field
untouched; a struct / pointer-to-struct field changed only by the
recursive walk; any other field overwritten only if it was zero at
inspection and carries a non-empty default tag, otherwise untouched. -/
def defaultWriteF : Config → Fields → Fields → Prop
  | _, .nil, .nil => True
  | cfg, .cons n ex tags v fs, .cons n1 ex1 tags1 v1 fs1 =>
    n1 = n ∧ ex1 = ex ∧ tags1 = tags ∧
    (if ex = true then
      (if isStructOrPtrToStruct v = true then defaultWriteV cfg v v1
       else if (isZeroValue v && tagGet tags cfg.DefaultTag ≠ "") = true then True
       else v1 = v)
     else v1 = v) ∧
    defaultWriteF cfg fs fs1
  | _, _, _ => False

end

mutual

/-- The write discipline is reflexive: leaving everything unchanged is
always permitted. -/
theorem defaultWriteV_refl (cfg : Config) : ∀ v : Value, defaultWriteV cfg v v
  | .str s => by simp [defaultWriteV]
  | .intV w n => by simp [defaultWriteV]
  | .uintV w n => by simp [defaultWriteV]
  | .floatV q => by simp [defaultWriteV]
  | .boolV b => by simp [defaultWriteV]
  | .durationV n => by simp [defaultWriteV]
  | .opaqueV ty nz => by simp [defaultWriteV]
  | .ptrNil z => by simp [defaultWriteV]
  | .ptr a => by simp [defaultWriteV, defaultWriteV_refl cfg a]
  | .structV gs => by simp [defaultWriteV, defaultWriteF_refl cfg gs]

/-- Field-list form of `defaultWriteV_refl`. -/
theorem defaultWriteF_refl (cfg : Config) : ∀ fs : Fields, defaultWriteF cfg fs fs
  | .nil => by simp [defaultWriteF]
  | .cons n ex tags v fs => by
    refine ⟨rfl, rfl, rfl, ?_, defaultWriteF_refl cfg fs⟩
    by_cases hex : ex = true
    · by_cases hs : isStructOrPtrToStruct v = true
      · simp [hex, hs, defaultWriteV_refl cfg v]
      · simp only [hex, if_true, hs, Bool.false_eq_true, if_false]
        split <;> trivial
    · simp [hex]

end

/-- Shape of the defaulting walk on a struct or pointer-to-struct
value: it yields a struct (the fieldwise walk) or a pointer. -/
theorem setDefault_shape (cfg : Config) (v w : Value) (e : Option String)
    (hs : isStructOrPtrToStruct v = true)
    (hrec : setDefaultRecursively cfg v = (w, e)) :
    (∃ gs, v = .structV gs ∧ w = .structV (setDefaultFields cfg gs).1) ∨ ∃ z, w = .ptr z := by
  match v with
  | .structV gs =>
    rw [setDefaultRecursively_structV] at hrec
    exact Or.inl ⟨gs, rfl, by simpa using (Prod.mk.injEq _ _ _ _ ▸ hrec).1.symm⟩
  | .ptrNil z =>
    rw [setDefaultRecursively_ptrNil] at hrec
    exact Or.inr ⟨_, (Prod.mk.injEq _ _ _ _ ▸ hrec).1.symm⟩
  | .ptr z =>
    rw [setDefaultRecursively_ptr] at hrec
    exact Or.inr ⟨_, (Prod.mk.injEq _ _ _ _ ▸ hrec).1.symm⟩
  | .str s => simp [isStructOrPtrToStruct] at hs
  | .intV w' n => simp [isStructOrPtrToStruct] at hs
  | .uintV w' n => simp [isStructOrPtrToStruct] at hs
  | .floatV q => simp [isStructOrPtrToStruct] at hs
  | .boolV b => simp [isStructOrPtrToStruct] at hs
  | .durationV n => simp [isStructOrPtrToStruct] at hs
  | .opaqueV ty nz => simp [isStructOrPtrToStruct] at hs

/-- The coercer has no handler for a struct value. -/
theorem parseAndSetDefault_structV (gs : Fields) (tag : String) :
    parseAndSetDefault (.structV gs) tag =
      .error ("unsupported field type: " ++ typeKey (.structV gs)) := rfl

mutual

/-- **C2 (helper).** The defaulting walk obeys the write discipline on
values, whether it succeeds or stops at an error. -/
theorem setDefault_writeV (cfg : Config) :
    ∀ v : Value, defaultWriteV cfg v (setDefaultRecursively cfg v).1
  | .str s => by simp [setDefaultRecursively, defaultWriteV]
  | .intV w n => by simp [setDefaultRecursively, defaultWriteV]
  | .uintV w n => by simp [setDefaultRecursively, defaultWriteV]
  | .floatV q => by simp [setDefaultRecursively, defaultWriteV]
  | .boolV b => by simp [setDefaultRecursively, defaultWriteV]
  | .durationV n => by simp [setDefaultRecursively, defaultWriteV]
  | .opaqueV ty nz => by simp [setDefaultRecursively, defaultWriteV]
  | .ptrNil z => by simp [setDefaultRecursively_ptrNil, defaultWriteV]
  | .ptr z => by
    simp [setDefaultRecursively_ptr, defaultWriteV, setDefault_writeV cfg z]
  | .structV fs => by
    simp [setDefaultRecursively_structV, defaultWriteV, setDefault_writeF cfg fs]

/-- Field-list form of `setDefault_writeV`. -/
theorem setDefault_writeF (cfg : Config) :
    ∀ fs : Fields, defaultWriteF cfg fs (setDefaultFields cfg fs).1
  | .nil => by simp [setDefaultFields, defaultWriteF]
  | .cons n ex tags v fs => by
    have hslot : ∀ v1 e, setDefaultField cfg n ex tags v = (v1, e) →
        (if ex = true then
          (if isStructOrPtrToStruct v = true then defaultWriteV cfg v v1
           else if (isZeroValue v && tagGet tags cfg.DefaultTag ≠ "") = true then True
           else v1 = v)
         else v1 = v) := by
      intro v1 e hF
      by_cases hex : ex = true
      · by_cases hs : isStructOrPtrToStruct v = true
        · simp only [hex, if_true, hs]
          cases hrec : setDefaultRecursively cfg v with
          | mk w ew =>
            rw [setDefaultField, if_pos hex, if_pos hs] at hF
            rw [hrec] at hF
            cases ew with
            | some e1 =>
              have hw : v1 = w := by simpa using (Prod.mk.injEq _ _ _ _ ▸ hF).1.symm
              have := setDefault_writeV cfg v
              rw [hrec] at this
              exact hw ▸ this
            | none =>
              cases hzt : (isZeroValue w && tagGet tags cfg.DefaultTag ≠ "") with
              | false =>
                simp only [hzt, Bool.false_eq_true, if_false] at hF
                have hw : v1 = w := by simpa using (Prod.mk.injEq _ _ _ _ ▸ hF).1.symm
                have := setDefault_writeV cfg v
                rw [hrec] at this
                exact hw ▸ this
              | true =>
                simp only [hzt, if_true] at hF
                cases hp : parseAndSetDefault w (tagGet tags cfg.DefaultTag) with
                | error pe =>
                  rw [hp] at hF
                  have hw : v1 = w := by simpa using (Prod.mk.injEq _ _ _ _ ▸ hF).1.symm
                  have := setDefault_writeV cfg v
                  rw [hrec] at this
                  exact hw ▸ this
                | ok v2 =>
                  exfalso
                  rcases setDefault_shape cfg v w none hs hrec with ⟨gs, hv, hw⟩ | ⟨z, hw⟩
                  · rw [hw, parseAndSetDefault_structV] at hp
                    exact Except.noConfusion hp
                  · rw [hw] at hzt
                    simp [isZeroValue] at hzt
        · simp only [hex, if_true, hs, Bool.false_eq_true, if_false]
          rw [setDefaultField, if_pos hex, if_neg (by simpa using hs)] at hF
          cases hzt : (isZeroValue v && tagGet tags cfg.DefaultTag ≠ "") with
          | false =>
            simp only [hzt, Bool.false_eq_true, if_false] at hF ⊢
            simpa using (Prod.mk.injEq _ _ _ _ ▸ hF).1.symm
          | true => simp [hzt]
      · simp only [hex, Bool.false_eq_true, if_false]
        rw [setDefaultField, if_neg hex] at hF
        simpa using (Prod.mk.injEq _ _ _ _ ▸ hF).1.symm
    rw [setDefaultFields_cons]
    cases hF : setDefaultField cfg n ex tags v with
    | mk v1 e =>
      cases e with
      | some e =>
        exact ⟨rfl, rfl, rfl, hslot v1 (some e) hF, defaultWriteF_refl cfg fs⟩
      | none =>
        cases hR : setDefaultFields cfg fs with
        | mk fs1 e2 =>
          refine ⟨rfl, rfl, rfl, hslot v1 none hF, ?_⟩
          have := setDefault_writeF cfg fs
          rw [hR] at this
          exact this

end

/-- **C2.** At every nesting level, the defaulting phase writes a
coerced default into a field slot only if the slot is zero at the
moment it is inspected and its default annotation is non-empty; in
particular every pre-populated non-zero scalar field, every field with
an empty default tag, every unexported field and all field metadata are
left untouched, and struct / pointer fields change only by the
recursive walk itself.  This holds on success and on error alike. -/
theorem defaulting_write_discipline (cfg : Config) (fs : Fields) (fs1 : Fields)
    (e : Option String) (h : setDefaultFields cfg fs = (fs1, e)) :
    defaultWriteF cfg fs fs1 := by
  have := setDefault_writeF cfg fs
  rw [h] at this
  exact this

/-- Witness for C2: a pre-populated non-zero field next to a zero one —
only the zero field is written. -/
theorem defaulting_write_discipline_witness :
    defaultWriteF defaultConfig
      (.cons "Address" true [("default", "0.0.0.0")] (.str "10.0.0.1")
        (.cons "MaxConns" true [("default", "100")] (.intV 64 0) .nil))
      (.cons "Address" true [("default", "0.0.0.0")] (.str "10.0.0.1")
        (.cons "MaxConns" true [("default", "100")] (.intV 64 100) .nil)) :=
  defaulting_write_discipline defaultConfig
    (.cons "Address" true [("default", "0.0.0.0")] (.str "10.0.0.1")
      (.cons "MaxConns" true [("default", "100")] (.intV 64 0) .nil))
    (.cons "Address" true [("default", "0.0.0.0")] (.str "10.0.0.1")
      (.cons "MaxConns" true [("default", "100")] (.intV 64 100) .nil))
    none rfl

/-- A value the coercer wrote parses back to itself: the written value
has the field's kind and width, and the parse depends only on those and
the tag. -/
theorem parseAndSetDefault_idem (v u : Value) (tag : String)
    (h : parseAndSetDefault v tag = .ok u) :
    parseAndSetDefault u tag = .ok u := by
  match v with
  | .str s =>
    have hu : u = .str tag := by simpa [parseAndSetDefault] using h.symm
    subst hu
    rfl
  | .intV w n =>
    simp only [parseAndSetDefault] at h
    cases hp : goParseInt tag with
    | error e => rw [hp] at h; exact absurd h (by simp)
    | ok i =>
      rw [hp] at h
      have hu : u = .intV w (truncInt w i) := by simpa using h.symm
      subst hu
      simp [parseAndSetDefault, hp]
  | .uintV w n =>
    simp only [parseAndSetDefault] at h
    cases hp : goParseUint tag with
    | error e => rw [hp] at h; exact absurd h (by simp)
    | ok i =>
      rw [hp] at h
      have hu : u = .uintV w (truncUint w i) := by simpa using h.symm
      subst hu
      simp [parseAndSetDefault, hp]
  | .floatV q =>
    simp only [parseAndSetDefault] at h
    cases hp : goParseFloat tag with
    | error e => rw [hp] at h; exact absurd h (by simp)
    | ok x =>
      rw [hp] at h
      have hu : u = .floatV x := by simpa using h.symm
      subst hu
      simp [parseAndSetDefault, hp]
  | .boolV b =>
    simp only [parseAndSetDefault] at h
    cases hp : goParseBool tag with
    | error e => rw [hp] at h; exact absurd h (by simp)
    | ok x =>
      rw [hp] at h
      have hu : u = .boolV x := by simpa using h.symm
      subst hu
      simp [parseAndSetDefault, hp]
  | .durationV n =>
    simp only [parseAndSetDefault] at h
    cases hp : goParseDuration tag with
    | error e => rw [hp] at h; exact absurd h (by simp)
    | ok d =>
      rw [hp] at h
      have hu : u = .durationV (truncInt 64 d) := by simpa using h.symm
      subst hu
      simp [parseAndSetDefault, hp]
  | .structV gs => simp [parseAndSetDefault] at h
  | .ptrNil z => simp [parseAndSetDefault] at h
  | .ptr z => simp [parseAndSetDefault] at h
  | .opaqueV ty nz => simp [parseAndSetDefault] at h

/-- The coercer only writes scalar kinds. -/
theorem parseAndSetDefault_ok_scalar (v u : Value) (tag : String)
    (h : parseAndSetDefault v tag = .ok u) :
    isStructOrPtrToStruct u = false := by
  match v with
  | .str s =>
    have hu : u = .str tag := by simpa [parseAndSetDefault] using h.symm
    subst hu; rfl
  | .intV w n =>
    simp only [parseAndSetDefault] at h
    cases hp : goParseInt tag with
    | error e => rw [hp] at h; exact absurd h (by simp)
    | ok i =>
      rw [hp] at h
      have hu : u = .intV w (truncInt w i) := by simpa using h.symm
      subst hu; rfl
  | .uintV w n =>
    simp only [parseAndSetDefault] at h
    cases hp : goParseUint tag with
    | error e => rw [hp] at h; exact absurd h (by simp)
    | ok i =>
      rw [hp] at h
      have hu : u = .uintV w (truncUint w i) := by simpa using h.symm
      subst hu; rfl
  | .floatV q =>
    simp only [parseAndSetDefault] at h
    cases hp : goParseFloat tag with
    | error e => rw [hp] at h; exact absurd h (by simp)
    | ok x =>
      rw [hp] at h
      have hu : u = .floatV x := by simpa using h.symm
      subst hu; rfl
  | .boolV b =>
    simp only [parseAndSetDefault] at h
    cases hp : goParseBool tag with
    | error e => rw [hp] at h; exact absurd h (by simp)
    | ok x =>
      rw [hp] at h
      have hu : u = .boolV x := by simpa using h.symm
      subst hu; rfl
  | .durationV n =>
    simp only [parseAndSetDefault] at h
    cases hp : goParseDuration tag with
    | error e => rw [hp] at h; exact absurd h (by simp)
    | ok d =>
      rw [hp] at h
      have hu : u = .durationV (truncInt 64 d) := by simpa using h.symm
      subst hu; rfl
  | .structV gs => simp [parseAndSetDefault] at h
  | .ptrNil z => simp [parseAndSetDefault] at h
  | .ptr z => simp [parseAndSetDefault] at h
  | .opaqueV ty nz => simp [parseAndSetDefault] at h

/-- The defaulting walk keeps a struct / pointer-to-struct value of
struct or pointer-to-struct kind. -/
theorem setDefault_preserves_kind (cfg : Config) (v w : Value) (e : Option String)
    (hs : isStructOrPtrToStruct v = true)
    (hrec : setDefaultRecursively cfg v = (w, e)) :
    isStructOrPtrToStruct w = true := by
  match v with
  | .structV gs =>
    rw [setDefaultRecursively_structV] at hrec
    have hw : w = .structV (setDefaultFields cfg gs).1 := by
      simpa using (Prod.mk.injEq _ _ _ _ ▸ hrec).1.symm
    rw [hw]; rfl
  | .ptrNil z =>
    have hz : isStructKind z = true := by simpa [isStructOrPtrToStruct] using hs
    match z, hz with
    | .structV gs, _ =>
      rw [setDefaultRecursively_ptrNil, setDefaultRecursively_structV] at hrec
      have hw : w = .ptr (.structV (setDefaultFields cfg gs).1) := by
        simpa using (Prod.mk.injEq _ _ _ _ ▸ hrec).1.symm
      rw [hw]; rfl
  | .ptr z =>
    have hz : isStructKind z = true := by simpa [isStructOrPtrToStruct] using hs
    match z, hz with
    | .structV gs, _ =>
      rw [setDefaultRecursively_ptr, setDefaultRecursively_structV] at hrec
      have hw : w = .ptr (.structV (setDefaultFields cfg gs).1) := by
        simpa using (Prod.mk.injEq _ _ _ _ ▸ hrec).1.symm
      rw [hw]; rfl
  | .str s => simp [isStructOrPtrToStruct] at hs
  | .intV w' n => simp [isStructOrPtrToStruct] at hs
  | .uintV w' n => simp [isStructOrPtrToStruct] at hs
  | .floatV q => simp [isStructOrPtrToStruct] at hs
  | .boolV b => simp [isStructOrPtrToStruct] at hs
  | .durationV n => simp [isStructOrPtrToStruct] at hs
  | .opaqueV ty nz => simp [isStructOrPtrToStruct] at hs

mutual

/-- **C10 (helper).** A value on which the defaulting walk has already
run successfully is a fixed point of the walk. -/
theorem setDefault_idemV (cfg : Config) :
    ∀ v v1 : Value, setDefaultRecursively cfg v = (v1, none) →
      setDefaultRecursively cfg v1 = (v1, none)
  | .str s, v1, h => by
    have : v1 = .str s := by simpa [setDefaultRecursively] using h.symm
    subst this; rfl
  | .intV w n, v1, h => by
    have : v1 = .intV w n := by simpa [setDefaultRecursively] using h.symm
    subst this; rfl
  | .uintV w n, v1, h => by
    have : v1 = .uintV w n := by simpa [setDefaultRecursively] using h.symm
    subst this; rfl
  | .floatV q, v1, h => by
    have : v1 = .floatV q := by simpa [setDefaultRecursively] using h.symm
    subst this; rfl
  | .boolV b, v1, h => by
    have : v1 = .boolV b := by simpa [setDefaultRecursively] using h.symm
    subst this; rfl
  | .durationV n, v1, h => by
    have : v1 = .durationV n := by simpa [setDefaultRecursively] using h.symm
    subst this; rfl
  | .opaqueV ty nz, v1, h => by
    have : v1 = .opaqueV ty nz := by simpa [setDefaultRecursively] using h.symm
    subst this; rfl
  | .ptrNil z, v1, h => by
    rw [setDefaultRecursively_ptrNil] at h
    obtain ⟨h1, h2⟩ := Prod.mk.injEq _ _ _ _ ▸ h
    have hz : setDefaultRecursively cfg z = ((setDefaultRecursively cfg z).1, none) := by
      cases hzz : setDefaultRecursively cfg z with
      | mk a b => rw [hzz] at h2; simp at h2; simp [h2]
    have := setDefault_idemV cfg z (setDefaultRecursively cfg z).1 hz
    rw [← h1, setDefaultRecursively_ptr, this]
  | .ptr z, v1, h => by
    rw [setDefaultRecursively_ptr] at h
    obtain ⟨h1, h2⟩ := Prod.mk.injEq _ _ _ _ ▸ h
    have hz : setDefaultRecursively cfg z = ((setDefaultRecursively cfg z).1, none) := by
      cases hzz : setDefaultRecursively cfg z with
      | mk a b => rw [hzz] at h2; simp at h2; simp [h2]
    have := setDefault_idemV cfg z (setDefaultRecursively cfg z).1 hz
    rw [← h1, setDefaultRecursively_ptr, this]
  | .structV fs, v1, h => by
    rw [setDefaultRecursively_structV] at h
    obtain ⟨h1, h2⟩ := Prod.mk.injEq _ _ _ _ ▸ h
    have hf : setDefaultFields cfg fs = ((setDefaultFields cfg fs).1, none) := by
      cases hff : setDefaultFields cfg fs with
      | mk a b => rw [hff] at h2; simp at h2; simp [h2]
    have := setDefault_idemF cfg fs (setDefaultFields cfg fs).1 hf
    rw [← h1, setDefaultRecursively_structV, this]

/-- Field-list form of `setDefault_idemV`. -/
theorem setDefault_idemF (cfg : Config) :
    ∀ fs fs1 : Fields, setDefaultFields cfg fs = (fs1, none) →
      setDefaultFields cfg fs1 = (fs1, none)
  | .nil, fs1, h => by
    have : fs1 = .nil := by simpa [setDefaultFields] using h.symm
    subst this; rfl
  | .cons n ex tags v fs, fs1, h => by
    rw [setDefaultFields_cons] at h
    cases hF : setDefaultField cfg n ex tags v with
    | mk v1 e =>
      cases e with
      | some e => simp [hF] at h
      | none =>
        cases hR : setDefaultFields cfg fs with
        | mk fs2 e2 =>
          simp only [hF, hR] at h
          obtain ⟨hfs1, he2⟩ := Prod.mk.injEq _ _ _ _ ▸ h
          subst hfs1
          have hrest : setDefaultFields cfg fs2 = (fs2, none) :=
            setDefault_idemF cfg fs fs2 (by rw [hR, he2])
          have hfield : setDefaultField cfg n ex tags v1 = (v1, none) := by
            by_cases hex : ex = true
            · by_cases hs : isStructOrPtrToStruct v = true
              · cases hrec : setDefaultRecursively cfg v with
                | mk w ew =>
                  simp only [setDefaultField, hex, if_true, hs, hrec] at hF
                  cases ew with
                  | some e1 => simp at hF
                  | none =>
                    cases hzt : (isZeroValue w && tagGet tags cfg.DefaultTag ≠ "") with
                    | true =>
                      exfalso
                      simp only [hzt, if_true] at hF
                      cases hp : parseAndSetDefault w (tagGet tags cfg.DefaultTag) with
                      | error pe => rw [hp] at hF; simp at hF
                      | ok v2 =>
                        rcases setDefault_shape cfg v w none hs hrec with
                          ⟨gs, hv, hw⟩ | ⟨z, hw⟩
                        · rw [hw, parseAndSetDefault_structV] at hp
                          exact Except.noConfusion hp
                        · rw [hw] at hzt
                          simp [isZeroValue] at hzt
                    | false =>
                      simp only [hzt, Bool.false_eq_true, if_false] at hF
                      have hv1 : w = v1 := by simpa using hF
                      subst hv1
                      have hs1 : isStructOrPtrToStruct w = true :=
                        setDefault_preserves_kind cfg v w none hs hrec
                      have hrec1 : setDefaultRecursively cfg w = (w, none) :=
                        setDefault_idemV cfg v w hrec
                      simp [setDefaultField, hex, hs1, hrec1]
                      intro h1 h2
                      simp [h1, h2] at hzt
              · have hs' : isStructOrPtrToStruct v = false := by simpa using hs
                simp only [setDefaultField, hex, if_true, hs', Bool.false_eq_true,
                  if_false] at hF
                cases hzt : (isZeroValue v && tagGet tags cfg.DefaultTag ≠ "") with
                | false =>
                  simp only [hzt, Bool.false_eq_true, if_false] at hF
                  have hv1 : v = v1 := by simpa using hF
                  subst hv1
                  simp [setDefaultField, hex, hs']
                  intro h1 h2
                  simp [h1, h2] at hzt
                | true =>
                  simp only [hzt, if_true] at hF
                  cases hp : parseAndSetDefault v (tagGet tags cfg.DefaultTag) with
                  | error pe => rw [hp] at hF; simp at hF
                  | ok v2 =>
                    rw [hp] at hF
                    have hv1 : v2 = v1 := by simpa using hF
                    subst hv1
                    have hs2 : isStructOrPtrToStruct v2 = false :=
                      parseAndSetDefault_ok_scalar v v2 (tagGet tags cfg.DefaultTag) hp
                    have hpi := parseAndSetDefault_idem v v2 (tagGet tags cfg.DefaultTag) hp
                    cases hzt2 : (isZeroValue v2 && tagGet tags cfg.DefaultTag ≠ "") with
                    | false =>
                      simp [setDefaultField, hex, hs2]
                      intro h1 h2
                      simp [h1, h2] at hzt2
                    | true => simp [setDefaultField, hex, hs2, hzt2, hpi]
            · have hex' : ex = false := by simpa using hex
              simp only [setDefaultField, hex', Bool.false_eq_true, if_false] at hF
              have hv1 : v = v1 := by simpa using hF
              subst hv1
              simp [setDefaultField, hex']
          rw [setDefaultFields_cons, hfield, hrest]

end

/-- **C10.** The defaulting phase is idempotent: a record value on which
the recursive default applier has already run successfully is left
exactly unchanged (and without error) by a second run with the same
config. -/
theorem defaulting_idempotent (cfg : Config) (v v1 : Value)
    (h : setDefaultRecursively cfg v = (v1, none)) :
    setDefaultRecursively cfg v1 = (v1, none) :=
  setDefault_idemV cfg v v1 h

/-- Witness for C10: re-running defaulting on the already-defaulted
two-field record changes nothing. -/
theorem defaulting_idempotent_witness :
    setDefaultRecursively defaultConfig
        (.structV (.cons "Address" true [("default", "0.0.0.0")] (.str "0.0.0.0")
          (.cons "MaxConns" true [("default", "100")] (.intV 64 100) .nil))) =
      (.structV (.cons "Address" true [("default", "0.0.0.0")] (.str "0.0.0.0")
        (.cons "MaxConns" true [("default", "100")] (.intV 64 100) .nil)), none) :=
  defaulting_idempotent defaultConfig
    (.structV (.cons "Address" true [("default", "0.0.0.0")] (.str "")
      (.cons "MaxConns" true [("default", "100")] (.intV 64 0) .nil)))
    (.structV (.cons "Address" true [("default", "0.0.0.0")] (.str "0.0.0.0")
      (.cons "MaxConns" true [("default", "100")] (.intV 64 100) .nil)))
    rfl

end Optionator

